import Mathlib

/-!
Shallow embedding of the bounded concurrent request admission and completion
pipeline of `src/async_requests.py` (class `AsyncRequestManager`), together
with the configuration constants it reads from `src/config.py`.

Modelling conventions:
* Python's insertion-ordered dict `active_requests` becomes a list of entries
  in insertion order; `pending_requests` (a deque used FIFO) becomes a list
  whose head is the front of the queue.
* A request's `Future` is determined by the outcome of the downstream HTTP
  interaction, chosen by the environment at submission time (`NetOutcome`).
  `future.result()` is modelled by running `make_request` on that outcome:
  it yields `Except PyExn (Option Nat)`, where `.error` means the function
  raised (so `result()` re-raises) and `.ok v` means it returned `v`.
* Callbacks are opaque tokens (`Nat`); a falsy (`None`) callback is `Option.none`.
  Invocations are recorded as `CbCall` trace events rather than executed.
* Timestamps (`start_time`, `queued_time`) are used by the source only for
  log messages, so they are dropped from the embedding.
* `request_id` is `f"req_{counter}_{uuid4...}"` in the source; the uuid suffix
  is opaque randomness, so the id is modelled by the counter value, which is
  what makes ids unique and monotone.
-/

/-- `MAX_CONCURRENT_REQUESTS` from src/config.py line 35. -/
def MAX_CONCURRENT_REQUESTS : Nat := 3

/-- `PENDING_REQUESTS_LIMIT` from src/config.py line 36. -/
def PENDING_REQUESTS_LIMIT : Nat := 5

/-- `RESPONSE_TIMEOUT` from src/config.py line 37 (seconds). -/
def RESPONSE_TIMEOUT : Nat := 45

/-- Environment-chosen outcome of the downstream `requests.post` interaction
for one verification request:
* `response status jsonBody`: the call returned an HTTP response with the
  given status code; `jsonBody = some b` means `response.json()` parses to
  `b`, `jsonBody = none` means `response.json()` raises.
* `timeout`: `requests.post` raises `requests.exceptions.Timeout`.
* `exn msg`: `requests.post` (or anything else in the `try` block) raises
  some other exception. -/
inductive NetOutcome where
  | response (status : Nat) (jsonBody : Option Nat)
  | timeout
  | exn (msg : String)
deriving DecidableEq, Repr

/-- Python exceptions that the embedded code can raise. -/
inductive PyExn where
  | timeoutExn
  | typeError (msg : String)
  | otherExn (msg : String)
deriving DecidableEq, Repr

/-- `str(e)` for an exception value. -/
def PyExn.str : PyExn → String
  | .timeoutExn => "Timeout"
  | .typeError m => m
  | .otherExn m => m

/-- The body of the `try` block of `_make_request` (src/async_requests.py
lines 50-66), before any `except` clause: returns the parsed JSON body when
the status is 200, returns `None` for any other status, and raises for a
timeout, a JSON-decode failure on a 200 response, or any other error. -/
def make_request_try (o : NetOutcome) : Except PyExn (Option Nat) :=
  match o with
  | .response status jsonBody =>
      if status = 200 then
        match jsonBody with
        | some b => .ok (some b)
        | none => .error (.otherExn "json decode error")
      else
        .ok none
  | .timeout => .error .timeoutExn
  | .exn m => .error (.otherExn m)

/-- `_make_request` (src/async_requests.py lines 49-72): the `try` body with
its two `except` clauses, `except requests.exceptions.Timeout` (line 67) and
`except Exception` (line 70), both of which swallow the exception and return
`None`. -/
def make_request (o : NetOutcome) : Except PyExn (Option Nat) :=
  match make_request_try o with
  | .ok r => .ok r
  | .error .timeoutExn => .ok none
  | .error _ => .ok none

/-- One entry of `self.active_requests` (keyed by request id in the source;
here the key is the `rid` field and insertion order is list order). The
stored `future` is represented by the `outcome` that determines it; the
`start_time` field is dropped (log-only). -/
structure ActiveEntry where
  rid : Nat
  outcome : NetOutcome
  callback : Option Nat
deriving DecidableEq, Repr

/-- One entry of the `self.pending_requests` deque (src lines 36-41);
`queued_time` is dropped (log-only). -/
structure PendingEntry where
  rid : Nat
  image_data : Nat
  outcome : NetOutcome
  callback : Option Nat
deriving DecidableEq, Repr

/-- The mutable state of an `AsyncRequestManager` (src lines 14-20). The
`executor` and `lock` fields carry no ledger state and are not part of the
configuration, so they do not appear; `max_concurrent` is fixed at
construction (default `MAX_CONCURRENT_REQUESTS`). -/
structure AsyncRequestManager where
  max_concurrent : Nat
  request_counter : Nat
  active_requests : List ActiveEntry
  pending_requests : List PendingEntry
deriving DecidableEq, Repr

/-- `AsyncRequestManager.__init__` (src lines 14-20). The source defaults
`max_concurrent` to `MAX_CONCURRENT_REQUESTS`; pass that constant for the
default construction. -/
def AsyncRequestManager.init (max_concurrent : Nat) : AsyncRequestManager :=
  { max_concurrent := max_concurrent
    request_counter := 0
    active_requests := []
    pending_requests := [] }

/-- A recorded callback invocation: the callback token, the request id it
belongs to, the two positional arguments `(result, error)` the source passes,
and whether the invocation was synchronous (inside `submit_request`) or
dispatched on a fresh `Thread` by the reconciler. -/
structure CbCall where
  cb : Nat
  rid : Nat
  result : Option Nat
  error : Option String
  sync : Bool
deriving DecidableEq, Repr

/-- Result of one `submit_request` call: the post-call manager state, the
return value (`.error` when the call raises, as Python does when the
rejection branch calls a `None` callback), and the callback invocations made
synchronously during the call. -/
structure SubmitOut where
  st : AsyncRequestManager
  ret : Except PyExn (Option Nat)
  calls : List CbCall
deriving Repr

/-- `submit_request` (src/async_requests.py lines 22-47). The whole body runs
under `self.lock`. Branches in source order: admit immediately when
`len(active_requests) < max_concurrent` (lines 26-34), queue when
`len(pending_requests) < PENDING_REQUESTS_LIMIT` (lines 35-43), otherwise
reject by calling `callback(None, "Queue full - system overloaded")`
synchronously and returning `None` (lines 44-47); when `callback` is `None`
that unguarded call raises `TypeError` (after `request_counter` was already
incremented). -/
def AsyncRequestManager.submit_request (m : AsyncRequestManager)
    (image_data : Nat) (outcome : NetOutcome) (callback : Option Nat) : SubmitOut :=
  let rid := m.request_counter + 1
  if m.active_requests.length < m.max_concurrent then
    { st := { m with
        request_counter := rid
        active_requests := m.active_requests ++
          [{ rid := rid, outcome := outcome, callback := callback }] }
      ret := .ok (some rid)
      calls := [] }
  else if m.pending_requests.length < PENDING_REQUESTS_LIMIT then
    { st := { m with
        request_counter := rid
        pending_requests := m.pending_requests ++
          [{ rid := rid, image_data := image_data, outcome := outcome,
             callback := callback }] }
      ret := .ok (some rid)
      calls := [] }
  else
    match callback with
    | some c =>
        { st := { m with request_counter := rid }
          ret := .ok none
          calls := [{ cb := c, rid := rid, result := none,
                      error := some "Queue full - system overloaded", sync := true }] }
    | none =>
        { st := { m with request_counter := rid }
          ret := .error (.typeError "NoneType object is not callable")
          calls := [] }

/-- Body of the per-completed-request loop of `process_completed_requests`
(src lines 80-91) for one popped entry: `future.result()` (re-raising what
`_make_request` raised, modelled by `make_request`), then the guarded
dispatch `if request_info['callback']: Thread(...).start()` with arguments
`(result, None)` on success and `(None, str(e))` in the `except` branch.
Returns the dispatched invocation, or `none` when the callback is falsy. -/
def harvestCall (e : ActiveEntry) : Option CbCall :=
  match make_request e.outcome with
  | .ok result =>
      match e.callback with
      | some c => some { cb := c, rid := e.rid, result := result,
                         error := none, sync := false }
      | none => none
  | .error ex =>
      match e.callback with
      | some c => some { cb := c, rid := e.rid, result := none,
                         error := some ex.str, sync := false }
      | none => none

/-- The harvest phase of `process_completed_requests` (src lines 76-91):
collect the ids of active entries whose future is `done()` (in dict
insertion order), pop each from `active_requests`, and dispatch its callback
via `harvestCall`. Returns the remaining active entries and the dispatched
invocations in order. -/
def AsyncRequestManager.harvest (m : AsyncRequestManager) (done : Nat → Bool) :
    List ActiveEntry × List CbCall :=
  (m.active_requests.filter (fun e => !(done e.rid)),
   (m.active_requests.filter (fun e => done e.rid)).filterMap harvestCall)

/-- The active-map entry built for a promoted queue entry (src lines
101-105): same id and callback, a fresh future for its dispatched call. -/
def PendingEntry.toActive (q : PendingEntry) : ActiveEntry :=
  { rid := q.rid, outcome := q.outcome, callback := q.callback }

/-- The promotion `while` loop of `process_completed_requests` (src lines
92-107): while there is a free slot and the queue is non-empty, pop the head
of `pending_requests`, dispatch its call to the executor, and insert it into
`active_requests`. Returns the new active list, the remaining queue, and the
ids promoted in order. -/
def promote_loop (maxc : Nat) (active : List ActiveEntry) :
    List PendingEntry → List ActiveEntry × List PendingEntry × List Nat
  | [] => (active, [], [])
  | q :: rest =>
      if active.length < maxc then
        let r := promote_loop maxc (active ++ [q.toActive]) rest
        (r.1, r.2.1, q.rid :: r.2.2)
      else
        (active, q :: rest, [])

/-- Result of one `process_completed_requests` pass: the post-pass state, the
callback invocations dispatched while harvesting, and the ids promoted from
the queue in order. -/
structure ReconcileOut where
  st : AsyncRequestManager
  calls : List CbCall
  promoted : List Nat
deriving Repr

/-- `process_completed_requests` (src/async_requests.py lines 74-107): the
harvest phase followed by the promotion loop, all under `self.lock`. The
`done` predicate is the environment's choice of which active futures report
`done()` at this pass. -/
def AsyncRequestManager.process_completed_requests (m : AsyncRequestManager)
    (done : Nat → Bool) : ReconcileOut :=
  let h := m.harvest done
  let p := promote_loop m.max_concurrent h.1 m.pending_requests
  { st := { m with active_requests := p.1, pending_requests := p.2.1 }
    calls := h.2
    promoted := p.2.2 }

/-- `get_status` (src lines 109-115). -/
structure Status where
  active_requests : Nat
  pending_requests : Nat
  max_concurrent : Nat
deriving DecidableEq, Repr

def AsyncRequestManager.get_status (m : AsyncRequestManager) : Status :=
  { active_requests := m.active_requests.length
    pending_requests := m.pending_requests.length
    max_concurrent := m.max_concurrent }

/-- One externally triggered operation on the manager: a `submit_request`
call (with the environment's choice of downstream outcome and the caller's
callback), or one `process_completed_requests` pass (with the environment's
choice of which futures are done). -/
inductive Event where
  | submit (image_data : Nat) (outcome : NetOutcome) (callback : Option Nat)
  | reconcile (done : Nat → Bool)

/-- Effect of one event: next state, callback invocations, promoted ids. -/
def stepEv (m : AsyncRequestManager) : Event → AsyncRequestManager × List CbCall × List Nat
  | .submit img o cb =>
      let s := m.submit_request img o cb
      (s.st, s.calls, [])
  | .reconcile done =>
      let r := m.process_completed_requests done
      (r.st, r.calls, r.promoted)

/-- Run a sequence of events, accumulating the callback-invocation trace and
the promotion trace. -/
def runTrace (m : AsyncRequestManager) : List Event → AsyncRequestManager × List CbCall × List Nat
  | [] => (m, [], [])
  | e :: evs =>
      let s := stepEv m e
      let r := runTrace s.1 evs
      (r.1, s.2.1 ++ r.2.1, s.2.2 ++ r.2.2)

/-- Final state of a run. -/
def run (m : AsyncRequestManager) (evs : List Event) : AsyncRequestManager :=
  (runTrace m evs).1

/-- Ids currently in the active map, in insertion order. -/
def activeIds (m : AsyncRequestManager) : List Nat :=
  m.active_requests.map ActiveEntry.rid

/-- Ids currently in the pending queue, front first. -/
def pendingIds (m : AsyncRequestManager) : List Nat :=
  m.pending_requests.map PendingEntry.rid

/-- All ids present in the ledger. -/
def allIds (m : AsyncRequestManager) : List Nat :=
  activeIds m ++ pendingIds m

/-- State invariant of the ledger. -/
structure SInv (m : AsyncRequestManager) : Prop where
  active_le : m.active_requests.length ≤ m.max_concurrent
  pending_le : m.pending_requests.length ≤ PENDING_REQUESTS_LIMIT
  ids_le : ∀ i ∈ allIds m, i ≤ m.request_counter
  nodup : (allIds m).Nodup
  pending_sorted : List.Sorted (· < ·) (pendingIds m)

/-- Execution of a dispatched callback on its own `Thread` (src line 87/91):
the environment chooses which callback tokens raise when run. The thread's
failure is invisible to the reconciler, which only started the thread. -/
def callbackExec (raises : Nat → Bool) (c : CbCall) : Except PyExn Unit :=
  if raises c.cb then .error (.otherExn "callback raised") else .ok ()

/-- The three branches of `submit_request`. -/
inductive SubmitBranch where
  | immediate
  | queued
  | rejected
deriving DecidableEq, Repr

/-- Primitive operations of the submission path, for reasoning about lock
scope and blocking. -/
inductive ActionKind where
  | generate_id
  | dispatch_to_executor
  | insert_active
  | append_pending
  | invoke_callback
  | network_call
deriving DecidableEq, Repr

/-- One primitive operation, tagged with whether it executes while holding
`self.lock` and whether it blocks on network I/O. -/
structure PrimAction where
  kind : ActionKind
  holds_ledger_lock : Bool
  blocks_on_network : Bool
deriving DecidableEq, Repr

/-- Lock-scope trace of `submit_request` (src lines 22-47): the entire body,
including the `executor.submit` dispatch of the immediate branch (line 27),
executes inside `with self.lock`. `ThreadPoolExecutor.submit` only enqueues
the call; it does not perform network I/O. -/
def submit_request_actions : SubmitBranch → List PrimAction
  | .immediate =>
      [{ kind := .generate_id, holds_ledger_lock := true, blocks_on_network := false },
       { kind := .dispatch_to_executor, holds_ledger_lock := true, blocks_on_network := false },
       { kind := .insert_active, holds_ledger_lock := true, blocks_on_network := false }]
  | .queued =>
      [{ kind := .generate_id, holds_ledger_lock := true, blocks_on_network := false },
       { kind := .append_pending, holds_ledger_lock := true, blocks_on_network := false }]
  | .rejected =>
      [{ kind := .generate_id, holds_ledger_lock := true, blocks_on_network := false },
       { kind := .invoke_callback, holds_ledger_lock := true, blocks_on_network := false }]

/-- The dispatched verification call `_make_request` (src lines 49-72) runs
on an executor worker thread: it blocks on `requests.post` but holds no
ledger lock. -/
def make_request_actions : List PrimAction :=
  [{ kind := .network_call, holds_ledger_lock := false, blocks_on_network := true }]

/-- Facts relating a state to its successor across one event, together with
the callback invocations and promotions that event produced. -/
structure StepFacts (m s : AsyncRequestManager) (calls : List CbCall) (promos : List Nat) : Prop where
  inv : SInv s
  maxc_eq : s.max_concurrent = m.max_concurrent
  counter_mono : m.request_counter ≤ s.request_counter
  gone : ∀ i, i ∉ allIds m → i ≤ m.request_counter → i ∉ allIds s
  promos_sorted : List.Sorted (· < ·) promos
  promos_src : ∀ p ∈ promos, p ∈ pendingIds m
  promos_lt_pending : ∀ p ∈ promos, ∀ q ∈ pendingIds s, p < q
  pending_src : ∀ q ∈ pendingIds s, q ∈ pendingIds m ∨ m.request_counter < q
  fired : ∀ c ∈ calls, c.rid ∉ allIds s ∧ c.rid ≤ s.request_counter

/-- Facts relating a state to the final state of a whole run, together with
the accumulated callback-invocation and promotion traces. -/
structure RunFacts (m s : AsyncRequestManager) (calls : List CbCall) (promos : List Nat) : Prop where
  inv : SInv s
  maxc_eq : s.max_concurrent = m.max_concurrent
  counter_mono : m.request_counter ≤ s.request_counter
  gone : ∀ i, i ∉ allIds m → i ≤ m.request_counter → i ∉ allIds s
  promos_sorted : List.Sorted (· < ·) promos
  promos_src : ∀ p ∈ promos, p ∈ pendingIds m ∨ m.request_counter < p
  promos_lt_pending : ∀ p ∈ promos, ∀ q ∈ pendingIds s, p < q
  pending_src : ∀ q ∈ pendingIds s, q ∈ pendingIds m ∨ m.request_counter < q
  fired : ∀ c ∈ calls, c.rid ∉ allIds s ∧ c.rid ≤ s.request_counter

/-- A concrete manager whose ledger is saturated on both bounds
(`max_concurrent = 0` active slots are all taken trivially, and the queue
holds `PENDING_REQUESTS_LIMIT` entries), used to instantiate the rejection
theorems. -/
def saturatedManager : AsyncRequestManager :=
  { max_concurrent := 0
    request_counter := 9
    active_requests := []
    pending_requests :=
      [ { rid := 1, image_data := 0, outcome := .timeout, callback := some 1 },
        { rid := 2, image_data := 0, outcome := .timeout, callback := some 2 },
        { rid := 3, image_data := 0, outcome := .timeout, callback := some 3 },
        { rid := 4, image_data := 0, outcome := .timeout, callback := none },
        { rid := 5, image_data := 0, outcome := .timeout, callback := some 5 } ] }

/-! ### Basic lemmas about the embedded operations -/

/-- `_make_request` never raises: both `except` clauses return `None`. -/
theorem make_request_never_raises (o : NetOutcome) : ∃ v, make_request o = .ok v := by
  cases o with
  | response status jsonBody =>
      by_cases h : status = 200
      · cases jsonBody with
        | none => exact ⟨none, by simp [make_request, make_request_try, h]⟩
        | some b => exact ⟨some b, by simp [make_request, make_request_try, h]⟩
      · exact ⟨none, by simp [make_request, make_request_try, h]⟩
  | timeout => exact ⟨none, rfl⟩
  | exn m => exact ⟨none, rfl⟩

/-- `_make_request` returns a parsed body exactly for a 200 response whose
body parses. -/
theorem make_request_some_iff (o : NetOutcome) (b : Nat) :
    make_request o = .ok (some b) ↔ o = .response 200 (some b) := by
  cases o with
  | response status jsonBody =>
      by_cases h : status = 200
      · cases jsonBody with
        | none => simp [make_request, make_request_try, h]
        | some v => simp [make_request, make_request_try, h]
      · simp [make_request, make_request_try, h, Ne.symm h]
  | timeout => simp [make_request, make_request_try]
  | exn m => simp [make_request, make_request_try]

/-- Closed form of the promotion loop: it moves exactly the first
`maxc - active.length` queue entries (capped at the queue length) to the end
of the active list, in queue order. -/
theorem promote_loop_eq (maxc : Nat) (p : List PendingEntry) :
    ∀ active : List ActiveEntry,
      promote_loop maxc active p =
        (active ++ (p.take (maxc - active.length)).map PendingEntry.toActive,
         p.drop (maxc - active.length),
         (p.take (maxc - active.length)).map PendingEntry.rid) := by
  induction p with
  | nil => intro a; simp [promote_loop]
  | cons q rest ih =>
      intro a
      by_cases h : a.length < maxc
      · have hk : maxc - a.length = (maxc - (a.length + 1)) + 1 := by omega
        rw [promote_loop, if_pos h, ih (a ++ [q.toActive])]
        simp [hk, List.append_assoc]
      · have hk : maxc - a.length = 0 := by omega
        rw [promote_loop, if_neg h]
        simp [hk]

/-- A harvested invocation is dispatched only for an entry whose callback is
present, and carries that entry's id and callback. -/
theorem harvestCall_some (e : ActiveEntry) (c : CbCall) (h : harvestCall e = some c) :
    c.rid = e.rid ∧ e.callback = some c.cb ∧ c.sync = false := by
  unfold harvestCall at h
  rcases hmk : make_request e.outcome with v | ex <;> rw [hmk] at h <;>
    rcases hcb : e.callback with _ | t <;> rw [hcb] at h <;> simp_all <;>
    simp [← h]

/-- A falsy callback is silently skipped by the harvest dispatch. -/
theorem harvestCall_none (e : ActiveEntry) (h : e.callback = none) :
    harvestCall e = none := by
  unfold harvestCall
  rcases hmk : make_request e.outcome with v | ex <;> simp [h]

/-- The ids of the invocations harvested from a list of entries are the ids
of exactly those entries whose callback is present, in order. -/
theorem harvest_calls_rids (l : List ActiveEntry) :
    (l.filterMap harvestCall).map CbCall.rid =
      (l.filter (fun e => e.callback.isSome)).map ActiveEntry.rid := by
  induction l with
  | nil => rfl
  | cons e rest ih =>
      rcases hcb : e.callback with _ | t
      · rw [List.filterMap_cons, harvestCall_none e hcb]
        simpa [hcb] using ih
      · rcases hc : harvestCall e with _ | c
        · unfold harvestCall at hc
          rcases hmk : make_request e.outcome with v | ex <;>
            rw [hmk] at hc <;> rw [hcb] at hc <;> simp_all
        · have hr := harvestCall_some e c hc
          rw [List.filterMap_cons, hc]
          simp only [List.filter_cons, hcb, Option.isSome_some, if_true, List.map_cons, ih]
          simp [hr.1]

/-- Every harvested invocation has error `none` (the success-shaped dispatch
of src line 87): the `except` branch of the harvest loop (src lines 88-91)
is unreachable because `_make_request` never raises. -/
theorem harvestCall_error_none (e : ActiveEntry) (c : CbCall) (h : harvestCall e = some c) :
    c.error = none ∧ make_request e.outcome = .ok c.result := by
  obtain ⟨v, hv⟩ := make_request_never_raises e.outcome
  unfold harvestCall at h
  rw [hv] at h
  rcases hcb : e.callback with _ | t <;> rw [hcb] at h
  · exact absurd h (by simp)
  · cases Option.some.inj h
    exact ⟨rfl, hv⟩

/-! ### Branch characterizations of `submit_request` -/

/-- Immediate-admission branch (src lines 26-34). -/
theorem submit_request_immediate (m : AsyncRequestManager) (img : Nat) (o : NetOutcome)
    (cb : Option Nat) (h : m.active_requests.length < m.max_concurrent) :
    m.submit_request img o cb =
      { st := { m with
          request_counter := m.request_counter + 1
          active_requests := m.active_requests ++
            [{ rid := m.request_counter + 1, outcome := o, callback := cb }] }
        ret := .ok (some (m.request_counter + 1))
        calls := [] } := by
  simp [AsyncRequestManager.submit_request, h]

/-- Queueing branch (src lines 35-43). -/
theorem submit_request_queued (m : AsyncRequestManager) (img : Nat) (o : NetOutcome)
    (cb : Option Nat) (h1 : ¬ m.active_requests.length < m.max_concurrent)
    (h2 : m.pending_requests.length < PENDING_REQUESTS_LIMIT) :
    m.submit_request img o cb =
      { st := { m with
          request_counter := m.request_counter + 1
          pending_requests := m.pending_requests ++
            [{ rid := m.request_counter + 1, image_data := img, outcome := o,
               callback := cb }] }
        ret := .ok (some (m.request_counter + 1))
        calls := [] } := by
  simp [AsyncRequestManager.submit_request, h1, h2]

/-- Rejection branch with a present callback (src lines 44-47). -/
theorem submit_request_rejected (m : AsyncRequestManager) (img : Nat) (o : NetOutcome)
    (c : Nat) (h1 : ¬ m.active_requests.length < m.max_concurrent)
    (h2 : ¬ m.pending_requests.length < PENDING_REQUESTS_LIMIT) :
    m.submit_request img o (some c) =
      { st := { m with request_counter := m.request_counter + 1 }
        ret := .ok none
        calls := [{ cb := c, rid := m.request_counter + 1, result := none,
                    error := some "Queue full - system overloaded", sync := true }] } := by
  simp [AsyncRequestManager.submit_request, h1, h2]

/-- Rejection branch with a `None` callback (src line 46 raises `TypeError`). -/
theorem submit_request_rejected_none (m : AsyncRequestManager) (img : Nat) (o : NetOutcome)
    (h1 : ¬ m.active_requests.length < m.max_concurrent)
    (h2 : ¬ m.pending_requests.length < PENDING_REQUESTS_LIMIT) :
    m.submit_request img o none =
      { st := { m with request_counter := m.request_counter + 1 }
        ret := .error (.typeError "NoneType object is not callable")
        calls := [] } := by
  simp [AsyncRequestManager.submit_request, h1, h2]

/-! ### The ledger invariant is preserved -/

/-- A freshly generated id is not yet in the ledger. -/
theorem fresh_id_not_mem {m : AsyncRequestManager} (h : SInv m) :
    m.request_counter + 1 ∉ allIds m := by
  intro hm
  have := h.ids_le _ hm
  omega

/-- Inserting a fresh element between two lists keeps them duplicate-free. -/
theorem nodup_insert_middle {A P : List Nat} {x : Nat}
    (h : (A ++ P).Nodup) (hx : x ∉ A ++ P) : ((A ++ [x]) ++ P).Nodup := by
  rcases List.nodup_append.mp h with ⟨hA, hP, hD⟩
  have hxA : x ∉ A := fun hc => hx (List.mem_append.mpr (Or.inl hc))
  have hxP : x ∉ P := fun hc => hx (List.mem_append.mpr (Or.inr hc))
  refine List.nodup_append.mpr ⟨List.nodup_append.mpr ⟨hA, List.nodup_singleton x, ?_⟩, hP, ?_⟩
  · intro a ha hs
    rw [List.mem_singleton] at hs
    exact hxA (hs ▸ ha)
  · intro a ha
    rcases List.mem_append.mp ha with hmem | hmem
    · exact hD hmem
    · rw [List.mem_singleton] at hmem
      exact hmem ▸ hxP

/-- One `submit_request` call preserves the invariant and produces no
promotions; its only possible callback invocation is the synchronous
overload rejection, whose id never entered the ledger. -/
theorem stepFacts_submit (m : AsyncRequestManager) (img : Nat) (o : NetOutcome)
    (cb : Option Nat) (h : SInv m) :
    StepFacts m (m.submit_request img o cb).st (m.submit_request img o cb).calls [] := by
  have hfresh := fresh_id_not_mem h
  by_cases h1 : m.active_requests.length < m.max_concurrent
  · rw [submit_request_immediate m img o cb h1]
    refine ⟨⟨?_, ?_, ?_, ?_, ?_⟩, rfl, by simp, ?_, List.sorted_nil, by simp, by simp, ?_, by simp⟩
    · simpa using h1
    · exact h.pending_le
    · intro i hi
      simp only [allIds, activeIds, pendingIds, List.map_append, List.map_cons,
        List.map_nil, List.mem_append, List.mem_singleton] at hi ⊢
      rcases hi with (hi | hi) | hi
      · have := h.ids_le i (by simp [allIds, activeIds, pendingIds, hi]); omega
      · omega
      · have := h.ids_le i (by simp [allIds, activeIds, pendingIds, hi]); omega
    · have := h.nodup
      simp only [allIds, activeIds, pendingIds, List.map_append, List.map_cons,
        List.map_nil] at this ⊢
      exact nodup_insert_middle this (by simpa [allIds, activeIds, pendingIds] using hfresh)
    · simpa [pendingIds] using h.pending_sorted
    · intro i hi hle
      simp only [allIds, activeIds, pendingIds, List.map_append, List.map_cons,
        List.map_nil, List.mem_append, List.mem_singleton]
      push_neg
      simp only [allIds, activeIds, pendingIds, List.mem_append] at hi
      push_neg at hi
      exact ⟨⟨hi.1, by omega⟩, hi.2⟩
    · intro q hq
      left
      simpa [pendingIds] using hq
  · by_cases h2 : m.pending_requests.length < PENDING_REQUESTS_LIMIT
    · rw [submit_request_queued m img o cb h1 h2]
      refine ⟨⟨?_, ?_, ?_, ?_, ?_⟩, rfl, by simp, ?_, List.sorted_nil, by simp, by simp, ?_, by simp⟩
      · simpa using h.active_le
      · simpa using h2
      · intro i hi
        simp only [allIds, activeIds, pendingIds, List.map_append, List.map_cons,
          List.map_nil, List.mem_append, List.mem_singleton] at hi ⊢
        rcases hi with hi | (hi | hi)
        · have := h.ids_le i (by simp [allIds, activeIds, pendingIds, hi]); omega
        · have := h.ids_le i (by simp [allIds, activeIds, pendingIds, hi]); omega
        · omega
      · have hn := h.nodup
        simp only [allIds, activeIds, pendingIds, List.map_append, List.map_cons,
          List.map_nil] at hn ⊢
        rw [← List.append_assoc]
        refine List.nodup_append.mpr ⟨?_, List.nodup_singleton _, ?_⟩
        · exact hn
        · intro a ha hs
          rw [List.mem_singleton] at hs
          have := h.ids_le a (by simpa [allIds, activeIds, pendingIds] using ha)
          omega
      · have hs := h.pending_sorted
        simp only [pendingIds, List.map_append, List.map_cons, List.map_nil] at hs ⊢
        refine List.pairwise_append.mpr ⟨hs, List.sorted_singleton _, ?_⟩
        intro a ha b hb
        rw [List.mem_singleton] at hb
        have := h.ids_le a (by simp [allIds, activeIds, pendingIds, ha])
        omega
      · intro i hi hle
        simp only [allIds, activeIds, pendingIds, List.map_append, List.map_cons,
          List.map_nil, List.mem_append, List.mem_singleton]
        push_neg
        simp only [allIds, activeIds, pendingIds, List.mem_append] at hi
        push_neg at hi
        exact ⟨hi.1, hi.2, by omega⟩
      · intro q hq
        simp only [pendingIds, List.map_append, List.map_cons, List.map_nil,
          List.mem_append, List.mem_singleton] at hq
        rcases hq with hq | hq
        · exact Or.inl hq
        · right; omega
    · rcases cb with _ | c
      · rw [submit_request_rejected_none m img o h1 h2]
        refine ⟨⟨h.active_le, h.pending_le, ?_, ?_, ?_⟩, rfl, by simp, ?_, List.sorted_nil,
          by simp, by simp, fun q hq => Or.inl (by simpa [pendingIds] using hq), by simp⟩
        · intro i hi
          have := h.ids_le i (by simpa [allIds, activeIds, pendingIds] using hi)
          show i ≤ m.request_counter + 1
          omega
        · simpa [allIds, activeIds, pendingIds] using h.nodup
        · simpa [pendingIds] using h.pending_sorted
        · intro i hi hle
          simpa [allIds, activeIds, pendingIds] using hi
      · rw [submit_request_rejected m img o c h1 h2]
        refine ⟨⟨h.active_le, h.pending_le, ?_, ?_, ?_⟩, rfl, by simp, ?_, List.sorted_nil,
          by simp, by simp, fun q hq => Or.inl (by simpa [pendingIds] using hq), ?_⟩
        · intro i hi
          have := h.ids_le i (by simpa [allIds, activeIds, pendingIds] using hi)
          show i ≤ m.request_counter + 1
          omega
        · simpa [allIds, activeIds, pendingIds] using h.nodup
        · simpa [pendingIds] using h.pending_sorted
        · intro i hi hle
          simpa [allIds, activeIds, pendingIds] using hi
        · intro cc hcc
          rw [List.mem_singleton] at hcc
          subst hcc
          refine ⟨?_, by simp⟩
          simpa [allIds, activeIds, pendingIds] using hfresh

/-- Promotion preserves the id of a queue entry. -/
@[simp] theorem toActive_rid (q : PendingEntry) : q.toActive.rid = q.rid := rfl

/-- Closed form of one reconciler pass: harvest pops exactly the done
entries (dispatching their callbacks in insertion order), then promotion
moves the longest admissible prefix of the queue into the active map. -/
theorem process_completed_requests_eq (m : AsyncRequestManager) (done : Nat → Bool) :
    m.process_completed_requests done =
      { st := { m with
          active_requests := m.active_requests.filter (fun e => !(done e.rid)) ++
            (m.pending_requests.take
              (m.max_concurrent -
                (m.active_requests.filter (fun e => !(done e.rid))).length)).map
              PendingEntry.toActive
          pending_requests := m.pending_requests.drop
            (m.max_concurrent -
              (m.active_requests.filter (fun e => !(done e.rid))).length) }
        calls := (m.active_requests.filter (fun e => done e.rid)).filterMap harvestCall
        promoted := (m.pending_requests.take
          (m.max_concurrent -
            (m.active_requests.filter (fun e => !(done e.rid))).length)).map
          PendingEntry.rid } := by
  simp [AsyncRequestManager.process_completed_requests, AsyncRequestManager.harvest,
    promote_loop_eq]

/-- One reconciler pass preserves the invariant; its callback dispatches
belong to ids removed from the ledger, and its promotions are a FIFO prefix
of the queue. -/
theorem stepFacts_reconcile (m : AsyncRequestManager) (done : Nat → Bool) (h : SInv m) :
    StepFacts m (m.process_completed_requests done).st
      (m.process_completed_requests done).calls
      (m.process_completed_requests done).promoted := by
  rw [process_completed_requests_eq m done]
  dsimp only
  rcases List.nodup_append.mp (by simpa [allIds] using h.nodup) with ⟨hAnd, hPnd, hDisj⟩
  have hFsub : List.Sublist (m.active_requests.filter (fun e => !(done e.rid)))
      m.active_requests := List.filter_sublist m.active_requests
  have hFlen : (m.active_requests.filter (fun e => !(done e.rid))).length ≤
      m.active_requests.length := hFsub.length_le
  set k := m.max_concurrent -
    (m.active_requests.filter (fun e => !(done e.rid))).length with hk
  have hmapF : List.Sublist
      ((m.active_requests.filter (fun e => !(done e.rid))).map ActiveEntry.rid)
      (activeIds m) := hFsub.map ActiveEntry.rid
  have htakeP : List.map PendingEntry.rid (List.take k m.pending_requests) =
      (pendingIds m).take k := by
    simp only [pendingIds]
    exact List.map_take _ _ _
  have hdropP : List.map PendingEntry.rid (List.drop k m.pending_requests) =
      (pendingIds m).drop k := by
    simp only [pendingIds]
    exact List.map_drop _ _ _
  have htake_rid : ((m.pending_requests.take k).map PendingEntry.toActive).map
      ActiveEntry.rid = (pendingIds m).take k := by
    rw [List.map_map]
    have hcomp : (ActiveEntry.rid ∘ PendingEntry.toActive) = PendingEntry.rid := rfl
    rw [hcomp]
    exact htakeP
  have hActiveIds : activeIds { m with
      active_requests := m.active_requests.filter (fun e => !(done e.rid)) ++
        (m.pending_requests.take k).map PendingEntry.toActive
      pending_requests := m.pending_requests.drop k } =
      (m.active_requests.filter (fun e => !(done e.rid))).map ActiveEntry.rid ++
        (pendingIds m).take k := by
    simp only [activeIds, List.map_append, htake_rid]
  have hPendingIds : pendingIds { m with
      active_requests := m.active_requests.filter (fun e => !(done e.rid)) ++
        (m.pending_requests.take k).map PendingEntry.toActive
      pending_requests := m.pending_requests.drop k } = (pendingIds m).drop k := by
    simp only [pendingIds] at hdropP ⊢
    exact hdropP
  have hsub : ∀ i, i ∈ allIds { m with
      active_requests := m.active_requests.filter (fun e => !(done e.rid)) ++
        (m.pending_requests.take k).map PendingEntry.toActive
      pending_requests := m.pending_requests.drop k } → i ∈ allIds m := by
    intro i hi
    simp only [allIds, hActiveIds, hPendingIds, List.mem_append] at hi ⊢
    rcases hi with (hi | hi) | hi
    · exact Or.inl (hmapF.subset hi)
    · exact Or.inr (List.take_subset k (pendingIds m) hi)
    · exact Or.inr (List.drop_subset k (pendingIds m) hi)
  refine ⟨⟨?_, ?_, ?_, ?_, ?_⟩, rfl, le_refl _, ?_, ?_, ?_, ?_, ?_, ?_⟩
  · simp only [List.length_append, List.length_map, List.length_take]
    have := h.active_le
    omega
  · simp only [List.length_drop]
    have := h.pending_le
    omega
  · intro i hi
    exact h.ids_le i (hsub i hi)
  · simp only [allIds, hActiveIds, hPendingIds, List.append_assoc,
      List.take_append_drop]
    refine List.nodup_append.mpr ⟨hmapF.nodup hAnd, hPnd, ?_⟩
    intro a ha
    exact hDisj (hmapF.subset ha)
  · rw [hPendingIds]
    exact h.pending_sorted.sublist (List.drop_sublist k (pendingIds m))
  · intro i hi hle
    intro hmem
    exact hi (hsub i hmem)
  · rw [htakeP]
    exact h.pending_sorted.sublist (List.take_sublist k (pendingIds m))
  · intro p hp
    rw [htakeP] at hp
    exact List.take_subset k (pendingIds m) hp
  · intro p hp q hq
    rw [htakeP] at hp
    rw [hPendingIds] at hq
    exact h.pending_sorted.rel_of_mem_take_of_mem_drop hp hq
  · intro q hq
    rw [hPendingIds] at hq
    exact Or.inl (List.drop_subset k (pendingIds m) hq)
  · intro c hc
    rcases List.mem_filterMap.mp hc with ⟨e, he, hcall⟩
    rcases List.mem_filter.mp he with ⟨heA, hedone⟩
    rcases harvestCall_some e c hcall with ⟨hrid, _, _⟩
    have heAid : e.rid ∈ activeIds m := List.mem_map.mpr ⟨e, heA, rfl⟩
    have heP : e.rid ∉ pendingIds m := hDisj heAid
    constructor
    · simp only [allIds, hActiveIds, hPendingIds, List.mem_append, hrid]
      push_neg
      refine ⟨⟨?_, ?_⟩, ?_⟩
      · intro hmem
        rcases List.mem_map.mp hmem with ⟨f, hf, hfr⟩
        rcases List.mem_filter.mp hf with ⟨_, hfnd⟩
        rw [hfr] at hfnd
        simp only [hedone] at hfnd
        exact absurd hfnd (by simp)
      · intro hmem
        exact heP (List.take_subset k (pendingIds m) hmem)
      · intro hmem
        exact heP (List.drop_subset k (pendingIds m) hmem)
    · rw [hrid]
      exact h.ids_le e.rid (by simp [allIds, List.mem_append, heAid])

/-- The empty run preserves everything. -/
theorem runFacts_nil (m : AsyncRequestManager) (h : SInv m) : RunFacts m m [] [] :=
  ⟨h, rfl, le_refl _, fun _ hi _ => hi, List.sorted_nil, by simp, by simp,
   fun _ hq => Or.inl hq, by simp⟩

/-- Composing one step with the facts for the rest of a run. -/
theorem runFacts_compose {m s t : AsyncRequestManager} {cs cs2 : List CbCall}
    {ps ps2 : List Nat} (hm : SInv m) (h1 : StepFacts m s cs ps)
    (h2 : RunFacts s t cs2 ps2) : RunFacts m t (cs ++ cs2) (ps ++ ps2) := by
  refine ⟨h2.inv, h2.maxc_eq.trans h1.maxc_eq,
    le_trans h1.counter_mono h2.counter_mono, ?_, ?_, ?_, ?_, ?_, ?_⟩
  · intro i hi hle
    exact h2.gone i (h1.gone i hi hle) (le_trans hle h1.counter_mono)
  · refine List.pairwise_append.mpr ⟨h1.promos_sorted, h2.promos_sorted, ?_⟩
    intro a ha b hb
    rcases h2.promos_src b hb with hbp | hbc
    · exact h1.promos_lt_pending a ha b hbp
    · have ha2 : a ≤ m.request_counter := hm.ids_le a
        (by simp only [allIds, List.mem_append]
            exact Or.inr (h1.promos_src a ha))
      have hmono := h1.counter_mono
      omega
  · intro p hp
    rcases List.mem_append.mp hp with hp | hp
    · exact Or.inl (h1.promos_src p hp)
    · rcases h2.promos_src p hp with hps | hpc
      · exact h1.pending_src p hps
      · exact Or.inr (lt_of_le_of_lt h1.counter_mono hpc)
  · intro p hp q hq
    rcases List.mem_append.mp hp with hp | hp
    · rcases h2.pending_src q hq with hqs | hqc
      · exact h1.promos_lt_pending p hp q hqs
      · have hp2 : p ≤ m.request_counter := hm.ids_le p
          (by simp only [allIds, List.mem_append]
              exact Or.inr (h1.promos_src p hp))
        have hmono := h1.counter_mono
        omega
    · exact h2.promos_lt_pending p hp q hq
  · intro q hq
    rcases h2.pending_src q hq with hqs | hqc
    · exact h1.pending_src q hqs
    · exact Or.inr (lt_of_le_of_lt h1.counter_mono hqc)
  · intro c hc
    rcases List.mem_append.mp hc with hc | hc
    · rcases h1.fired c hc with ⟨hg, hle⟩
      exact ⟨h2.gone c.rid hg hle, le_trans hle h2.counter_mono⟩
    · exact h2.fired c hc

/-- Master induction: every run from an invariant-satisfying state keeps the
invariant and yields monotone, FIFO-consistent traces. -/
theorem run_master (evs : List Event) :
    ∀ m : AsyncRequestManager, SInv m →
      RunFacts m (runTrace m evs).1 (runTrace m evs).2.1 (runTrace m evs).2.2 := by
  induction evs with
  | nil =>
      intro m h
      exact runFacts_nil m h
  | cons e evs ih =>
      intro m h
      cases e with
      | submit img o cb =>
          have hstep := stepFacts_submit m img o cb h
          have hrest := ih _ hstep.inv
          have hcomp := runFacts_compose h hstep hrest
          simpa [runTrace, stepEv] using hcomp
      | reconcile done =>
          have hstep := stepFacts_reconcile m done h
          have hrest := ih _ hstep.inv
          have hcomp := runFacts_compose h hstep hrest
          simpa [runTrace, stepEv] using hcomp

/-- The invariant holds in the initial state. -/
theorem sInv_init (maxc : Nat) : SInv (AsyncRequestManager.init maxc) := by
  refine ⟨?_, ?_, ?_, ?_, ?_⟩ <;>
    simp [AsyncRequestManager.init, allIds, activeIds, pendingIds,
      PENDING_REQUESTS_LIMIT]

/-- Full shape of a harvested invocation: present callback, matching id,
asynchronous dispatch, and arguments `(result, None)` from the success path
or `(None, str(e))` from the `except` path. -/
theorem harvestCall_spec (e : ActiveEntry) (c : CbCall) (h : harvestCall e = some c) :
    e.callback = some c.cb ∧ c.rid = e.rid ∧ c.sync = false ∧
      ((make_request e.outcome = .ok c.result ∧ c.error = none) ∨
       (c.result = none ∧ ∃ ex, make_request e.outcome = .error ex ∧
          c.error = some ex.str)) := by
  rcases harvestCall_some e c h with ⟨h1, h2, h3⟩
  rcases harvestCall_error_none e c h with ⟨h4, h5⟩
  exact ⟨h2, h1, h3, Or.inl ⟨h5, h4⟩⟩

/-- With duplicate-free active ids, each done entry with a present callback
is dispatched exactly once by a harvest pass. -/
theorem harvest_calls_count (l : List ActiveEntry) (done : Nat → Bool)
    (hnd : (l.map ActiveEntry.rid).Nodup) (e : ActiveEntry) (he : e ∈ l)
    (hdone : done e.rid = true) (hcb : e.callback.isSome = true) :
    (((l.filter (fun x => done x.rid)).filterMap harvestCall).map CbCall.rid).count
      e.rid = 1 := by
  rw [harvest_calls_rids]
  have hsub : List.Sublist
      ((l.filter (fun x => done x.rid)).filter (fun x => x.callback.isSome)) l :=
    (List.filter_sublist _).trans (List.filter_sublist l)
  have hnd2 : (((l.filter (fun x => done x.rid)).filter
      (fun x => x.callback.isSome)).map ActiveEntry.rid).Nodup :=
    (hsub.map ActiveEntry.rid).nodup hnd
  have hmem : e.rid ∈ ((l.filter (fun x => done x.rid)).filter
      (fun x => x.callback.isSome)).map ActiveEntry.rid :=
    List.mem_map.mpr ⟨e, List.mem_filter.mpr ⟨List.mem_filter.mpr ⟨he, hdone⟩, hcb⟩, rfl⟩
  exact List.count_eq_one_of_mem hnd2 hmem

/-- With duplicate-free active ids, the invocations dispatched by one
harvest pass are pairwise distinct. -/
theorem harvest_calls_nodup (l : List ActiveEntry) (done : Nat → Bool)
    (hnd : (l.map ActiveEntry.rid).Nodup) :
    ((l.filter (fun x => done x.rid)).filterMap harvestCall).Nodup := by
  have h1 : (((l.filter (fun x => done x.rid)).filterMap harvestCall).map
      CbCall.rid).Nodup := by
    rw [harvest_calls_rids]
    exact ((((List.filter_sublist _).trans (List.filter_sublist l))).map
      ActiveEntry.rid).nodup hnd
  exact h1.of_map

/-! ### The claims -/

/-- C1: for every sequence of `submit_request` and
`process_completed_requests` calls starting from a fresh
`AsyncRequestManager`, at every instant the number of active requests is at
most `max_concurrent` and the number of queued requests is at most
`PENDING_REQUESTS_LIMIT`. (The event list is arbitrary, so the final state
of `run` ranges over every reachable instant.) -/
theorem C1_active_pending_bounded (maxc : Nat) (evs : List Event) :
    (run (AsyncRequestManager.init maxc) evs).active_requests.length ≤ maxc ∧
    (run (AsyncRequestManager.init maxc) evs).pending_requests.length ≤
      PENDING_REQUESTS_LIMIT := by
  have hm := run_master evs (AsyncRequestManager.init maxc) (sInv_init maxc)
  have h1 := hm.inv.active_le
  have h3 : (runTrace (AsyncRequestManager.init maxc) evs).1.max_concurrent = maxc :=
    hm.maxc_eq
  exact ⟨by rw [run]; omega, hm.inv.pending_le⟩

/-- C4: queued requests are promoted in strict FIFO submission order. Ids
are handed out by the monotonically increasing `request_counter`, so request
A was queued before request B exactly when A's id is smaller; the queue
itself is always sorted by id (second conjunct), the ids promoted over the
whole run form a strictly increasing sequence (first conjunct, so A is
promoted in an earlier pass than B or earlier within the same pass), and
every id still queued exceeds every id already promoted (third conjunct, so
promotion never skips an older request in favor of a newer one). -/
theorem C4_fifo_promotion (maxc : Nat) (evs : List Event) :
    List.Sorted (· < ·) (runTrace (AsyncRequestManager.init maxc) evs).2.2 ∧
    List.Sorted (· < ·) (pendingIds (runTrace (AsyncRequestManager.init maxc) evs).1) ∧
    ∀ p ∈ (runTrace (AsyncRequestManager.init maxc) evs).2.2,
      ∀ q ∈ pendingIds (runTrace (AsyncRequestManager.init maxc) evs).1, p < q := by
  have hm := run_master evs (AsyncRequestManager.init maxc) (sInv_init maxc)
  exact ⟨hm.promos_sorted, hm.inv.pending_sorted, hm.promos_lt_pending⟩

/-- Closed instance of `C4_fifo_promotion`: three requests overflow a
1-slot manager, are queued in order 2, 3, and are promoted in that order
across two reconciler passes. -/
theorem C4_fifo_promotion_witness :
    List.Sorted (· < ·) (runTrace (AsyncRequestManager.init 1)
      [Event.submit 0 NetOutcome.timeout (some 1),
       Event.submit 0 NetOutcome.timeout (some 2),
       Event.submit 0 NetOutcome.timeout (some 3),
       Event.reconcile (fun _ => true),
       Event.reconcile (fun _ => true)]).2.2 ∧
    List.Sorted (· < ·) (pendingIds (runTrace (AsyncRequestManager.init 1)
      [Event.submit 0 NetOutcome.timeout (some 1),
       Event.submit 0 NetOutcome.timeout (some 2),
       Event.submit 0 NetOutcome.timeout (some 3),
       Event.reconcile (fun _ => true),
       Event.reconcile (fun _ => true)]).1) ∧
    ∀ p ∈ (runTrace (AsyncRequestManager.init 1)
      [Event.submit 0 NetOutcome.timeout (some 1),
       Event.submit 0 NetOutcome.timeout (some 2),
       Event.submit 0 NetOutcome.timeout (some 3),
       Event.reconcile (fun _ => true),
       Event.reconcile (fun _ => true)]).2.2,
      ∀ q ∈ pendingIds (runTrace (AsyncRequestManager.init 1)
        [Event.submit 0 NetOutcome.timeout (some 1),
         Event.submit 0 NetOutcome.timeout (some 2),
         Event.submit 0 NetOutcome.timeout (some 3),
         Event.reconcile (fun _ => true),
         Event.reconcile (fun _ => true)]).1, p < q :=
  C4_fifo_promotion 1
    [Event.submit 0 NetOutcome.timeout (some 1),
     Event.submit 0 NetOutcome.timeout (some 2),
     Event.submit 0 NetOutcome.timeout (some 3),
     Event.reconcile (fun _ => true),
     Event.reconcile (fun _ => true)]

/-- C2 (failing evaluation): a request whose verification call times out is
harvested with callback arguments `(None, None)` — the error field is `None`
even though the result is absent because of the timeout — contradicting the
claim that the callback receives `(no-result, "timeout")`. `_make_request`
swallows the `Timeout` exception and returns `None` (src lines 67-69), so
the harvest success path (src line 87) passes `None` for the error. -/
theorem C2_timeout_callback_gets_no_error :
    (((AsyncRequestManager.init 1).submit_request 0 NetOutcome.timeout
        (some 7)).st.process_completed_requests (fun _ => true)).calls =
      [{ cb := 7, rid := 1, result := none, error := none, sync := false }] := by
  rfl

/-- C3: a `submit_request` call that finds the active map at or above
`max_concurrent` and the queue at or above `PENDING_REQUESTS_LIMIT` returns
no id (`.ok none`), synchronously invokes the supplied callback exactly once
with no result and the overload failure, and leaves `active_requests` and
`pending_requests` exactly as they were (only the id counter advances, and
the rejected request never enters the ledger). -/
theorem C3_overload_rejection (m : AsyncRequestManager) (img : Nat) (o : NetOutcome)
    (c : Nat) (hA : m.max_concurrent ≤ m.active_requests.length)
    (hP : PENDING_REQUESTS_LIMIT ≤ m.pending_requests.length) :
    m.submit_request img o (some c) =
      { st := { m with request_counter := m.request_counter + 1 }
        ret := .ok none
        calls := [{ cb := c, rid := m.request_counter + 1, result := none,
                    error := some "Queue full - system overloaded", sync := true }] } :=
  submit_request_rejected m img o c (by omega) (by omega)

/-- Closed instance of `C3_overload_rejection` at a saturated manager. -/
theorem C3_overload_rejection_witness :
    saturatedManager.submit_request 0 NetOutcome.timeout (some 3) =
      { st := { saturatedManager with request_counter := 10 }
        ret := .ok none
        calls := [{ cb := 3, rid := 10, result := none,
                    error := some "Queue full - system overloaded", sync := true }] } :=
  C3_overload_rejection saturatedManager 0 NetOutcome.timeout 3 (by decide) (by decide)

/-- C6: a request id appears in at most one of the active map and the
pending queue at any instant (their concatenation is duplicate-free), and
once any callback for the id has been recorded in the trace — the
synchronous rejection call included — the id is in neither structure. Since
the event list is arbitrary and traces only grow, the second conjunct at
every extension of a run covers every instant after the callback fired. -/
theorem C6_id_in_at_most_one_place (maxc : Nat) (evs : List Event) :
    (activeIds (runTrace (AsyncRequestManager.init maxc) evs).1 ++
      pendingIds (runTrace (AsyncRequestManager.init maxc) evs).1).Nodup ∧
    ∀ c ∈ (runTrace (AsyncRequestManager.init maxc) evs).2.1,
      c.rid ∉ activeIds (runTrace (AsyncRequestManager.init maxc) evs).1 ∧
      c.rid ∉ pendingIds (runTrace (AsyncRequestManager.init maxc) evs).1 := by
  have hm := run_master evs (AsyncRequestManager.init maxc) (sInv_init maxc)
  refine ⟨by simpa [allIds] using hm.inv.nodup, ?_⟩
  intro c hc
  have hf := (hm.fired c hc).1
  simp only [allIds, List.mem_append] at hf
  push_neg at hf
  exact hf

/-- Closed instance of `C6_id_in_at_most_one_place` on a run whose trace
contains both a harvested callback and a synchronous rejection. -/
theorem C6_id_in_at_most_one_place_witness :
    (activeIds (runTrace (AsyncRequestManager.init 1)
      [Event.submit 0 NetOutcome.timeout (some 1),
       Event.reconcile (fun _ => true)]).1 ++
      pendingIds (runTrace (AsyncRequestManager.init 1)
        [Event.submit 0 NetOutcome.timeout (some 1),
         Event.reconcile (fun _ => true)]).1).Nodup ∧
    ∀ c ∈ (runTrace (AsyncRequestManager.init 1)
        [Event.submit 0 NetOutcome.timeout (some 1),
         Event.reconcile (fun _ => true)]).2.1,
      c.rid ∉ activeIds (runTrace (AsyncRequestManager.init 1)
        [Event.submit 0 NetOutcome.timeout (some 1),
         Event.reconcile (fun _ => true)]).1 ∧
      c.rid ∉ pendingIds (runTrace (AsyncRequestManager.init 1)
        [Event.submit 0 NetOutcome.timeout (some 1),
         Event.reconcile (fun _ => true)]).1 :=
  C6_id_in_at_most_one_place 1
    [Event.submit 0 NetOutcome.timeout (some 1), Event.reconcile (fun _ => true)]

/-- C5: a harvest pass removes from the active map exactly the entries whose
future is done (first conjunct: the remaining map is the filter of the
not-done entries, so unfinished requests are untouched), dispatches the
callback of each removed entry exactly once (second conjunct), with
arguments that are either `(result, no-error)` from the success path or
`(no-result, error-description)` from the `except` path (third conjunct),
and every dispatched id is already absent from the post-harvest active map
(fourth conjunct: removal precedes dispatch). -/
theorem C5_harvest_pass (maxc : Nat) (evs : List Event) (done : Nat → Bool)
    (m : AsyncRequestManager) (hM : m = run (AsyncRequestManager.init maxc) evs) :
    (m.harvest done).1 = m.active_requests.filter (fun e => !(done e.rid)) ∧
    (∀ e ∈ m.active_requests, done e.rid = true → e.callback.isSome = true →
      ((m.harvest done).2.map CbCall.rid).count e.rid = 1) ∧
    (∀ c ∈ (m.harvest done).2,
      ∃ e ∈ m.active_requests, done e.rid = true ∧ e.callback = some c.cb ∧
        c.rid = e.rid ∧ c.sync = false ∧
        ((make_request e.outcome = .ok c.result ∧ c.error = none) ∨
         (c.result = none ∧ ∃ ex, make_request e.outcome = .error ex ∧
            c.error = some ex.str))) ∧
    (∀ c ∈ (m.harvest done).2, c.rid ∉ (m.harvest done).1.map ActiveEntry.rid) := by
  have hm := run_master evs (AsyncRequestManager.init maxc) (sInv_init maxc)
  have hnd : (activeIds m).Nodup := by
    rw [hM]
    exact (List.nodup_append.mp (by simpa [allIds] using hm.inv.nodup)).1
  refine ⟨rfl, ?_, ?_, ?_⟩
  · intro e he hdone hcb
    exact harvest_calls_count m.active_requests done hnd e he hdone hcb
  · intro c hc
    simp only [AsyncRequestManager.harvest] at hc
    rcases List.mem_filterMap.mp hc with ⟨e, he, hcall⟩
    rcases List.mem_filter.mp he with ⟨heA, hdone⟩
    rcases harvestCall_spec e c hcall with ⟨h1, h2, h3, h4⟩
    exact ⟨e, heA, hdone, h1, h2, h3, h4⟩
  · intro c hc
    simp only [AsyncRequestManager.harvest] at hc ⊢
    rcases List.mem_filterMap.mp hc with ⟨e, he, hcall⟩
    rcases List.mem_filter.mp he with ⟨heA, hdone⟩
    have hrid := (harvestCall_some e c hcall).1
    intro hmem
    rcases List.mem_map.mp hmem with ⟨f, hf, hfr⟩
    rcases List.mem_filter.mp hf with ⟨hfA, hfnd⟩
    rw [hrid] at hfr
    rw [hfr] at hfnd
    rw [hdone] at hfnd
    simp at hfnd

/-- Closed instance of `C5_harvest_pass`: one active timeout request,
harvested by an all-done pass. -/
theorem C5_harvest_pass_witness :
    ((run (AsyncRequestManager.init 1)
        [Event.submit 0 NetOutcome.timeout (some 5)]).harvest (fun _ => true)).1 =
      (run (AsyncRequestManager.init 1)
        [Event.submit 0 NetOutcome.timeout (some 5)]).active_requests.filter
        (fun e => !((fun _ => true) e.rid)) ∧
    (∀ e ∈ (run (AsyncRequestManager.init 1)
        [Event.submit 0 NetOutcome.timeout (some 5)]).active_requests,
      (fun _ => true) e.rid = true → e.callback.isSome = true →
      (((run (AsyncRequestManager.init 1)
          [Event.submit 0 NetOutcome.timeout (some 5)]).harvest
          (fun _ => true)).2.map CbCall.rid).count e.rid = 1) ∧
    (∀ c ∈ ((run (AsyncRequestManager.init 1)
        [Event.submit 0 NetOutcome.timeout (some 5)]).harvest (fun _ => true)).2,
      ∃ e ∈ (run (AsyncRequestManager.init 1)
          [Event.submit 0 NetOutcome.timeout (some 5)]).active_requests,
        (fun _ => true) e.rid = true ∧ e.callback = some c.cb ∧
        c.rid = e.rid ∧ c.sync = false ∧
        ((make_request e.outcome = .ok c.result ∧ c.error = none) ∨
         (c.result = none ∧ ∃ ex, make_request e.outcome = .error ex ∧
            c.error = some ex.str))) ∧
    (∀ c ∈ ((run (AsyncRequestManager.init 1)
        [Event.submit 0 NetOutcome.timeout (some 5)]).harvest (fun _ => true)).2,
      c.rid ∉ ((run (AsyncRequestManager.init 1)
        [Event.submit 0 NetOutcome.timeout (some 5)]).harvest
        (fun _ => true)).1.map ActiveEntry.rid) :=
  C5_harvest_pass 1 [Event.submit 0 NetOutcome.timeout (some 5)] (fun _ => true)
    (run (AsyncRequestManager.init 1) [Event.submit 0 NetOutcome.timeout (some 5)]) rfl

/-- C7: even when one of the callbacks dispatched by a reconciler pass
raises (callbacks are started on their own `Thread`, so the fault stays on
that thread — modelled by `callbackExec`), every completed request with a
present callback in that pass is still dispatched exactly once (first
conjunct), no dispatched invocation is duplicated, so the faulting callback
is not re-invoked (second conjunct), the promotion step still runs and moves
the FIFO prefix of the queue (third conjunct), and the fault surfaces only
in the faulting callback's own execution (fourth conjunct). -/
theorem C7_callback_fault_isolated (maxc : Nat) (evs : List Event)
    (done : Nat → Bool) (raises : Nat → Bool) (m : AsyncRequestManager)
    (hM : m = run (AsyncRequestManager.init maxc) evs)
    (hfault : ∃ c ∈ (m.process_completed_requests done).calls, raises c.cb = true) :
    (∀ e ∈ m.active_requests, done e.rid = true → e.callback.isSome = true →
      ((m.process_completed_requests done).calls.map CbCall.rid).count e.rid = 1) ∧
    (∀ c ∈ (m.process_completed_requests done).calls,
      (m.process_completed_requests done).calls.count c = 1) ∧
    ((m.process_completed_requests done).st.pending_requests =
        m.pending_requests.drop
          (m.max_concurrent -
            (m.active_requests.filter (fun e => !(done e.rid))).length) ∧
      (m.process_completed_requests done).promoted =
        (m.pending_requests.take
          (m.max_concurrent -
            (m.active_requests.filter (fun e => !(done e.rid))).length)).map
          PendingEntry.rid) ∧
    (∀ c ∈ (m.process_completed_requests done).calls, raises c.cb = true →
      callbackExec raises c = .error (.otherExn "callback raised")) := by
  have hm := run_master evs (AsyncRequestManager.init maxc) (sInv_init maxc)
  have hnd : (activeIds m).Nodup := by
    rw [hM]
    exact (List.nodup_append.mp (by simpa [allIds] using hm.inv.nodup)).1
  refine ⟨?_, ?_, ?_, ?_⟩
  · intro e he hdone hcb
    exact harvest_calls_count m.active_requests done hnd e he hdone hcb
  · intro c hc
    exact List.count_eq_one_of_mem
      (harvest_calls_nodup m.active_requests done hnd) hc
  · rw [process_completed_requests_eq m done]
    exact ⟨rfl, rfl⟩
  · intro c _ hr
    simp [callbackExec, hr]

/-- Closed instance of `C7_callback_fault_isolated`: two requests complete
in the same pass; the callback of the first (token 1) raises, the second is
still dispatched once each and a queued request is still promoted. -/
theorem C7_callback_fault_isolated_witness :
    (∀ e ∈ (run (AsyncRequestManager.init 2)
        [Event.submit 0 (NetOutcome.response 200 (some 4)) (some 1),
         Event.submit 0 NetOutcome.timeout (some 2),
         Event.submit 0 NetOutcome.timeout (some 3)]).active_requests,
      (fun _ => true) e.rid = true → e.callback.isSome = true →
      (((run (AsyncRequestManager.init 2)
          [Event.submit 0 (NetOutcome.response 200 (some 4)) (some 1),
           Event.submit 0 NetOutcome.timeout (some 2),
           Event.submit 0 NetOutcome.timeout (some 3)]).process_completed_requests
          (fun _ => true)).calls.map CbCall.rid).count e.rid = 1) ∧
    (∀ c ∈ ((run (AsyncRequestManager.init 2)
        [Event.submit 0 (NetOutcome.response 200 (some 4)) (some 1),
         Event.submit 0 NetOutcome.timeout (some 2),
         Event.submit 0 NetOutcome.timeout (some 3)]).process_completed_requests
        (fun _ => true)).calls,
      ((run (AsyncRequestManager.init 2)
        [Event.submit 0 (NetOutcome.response 200 (some 4)) (some 1),
         Event.submit 0 NetOutcome.timeout (some 2),
         Event.submit 0 NetOutcome.timeout (some 3)]).process_completed_requests
        (fun _ => true)).calls.count c = 1) ∧
    (((run (AsyncRequestManager.init 2)
        [Event.submit 0 (NetOutcome.response 200 (some 4)) (some 1),
         Event.submit 0 NetOutcome.timeout (some 2),
         Event.submit 0 NetOutcome.timeout (some 3)]).process_completed_requests
        (fun _ => true)).st.pending_requests =
        (run (AsyncRequestManager.init 2)
          [Event.submit 0 (NetOutcome.response 200 (some 4)) (some 1),
           Event.submit 0 NetOutcome.timeout (some 2),
           Event.submit 0 NetOutcome.timeout (some 3)]).pending_requests.drop
          ((run (AsyncRequestManager.init 2)
            [Event.submit 0 (NetOutcome.response 200 (some 4)) (some 1),
             Event.submit 0 NetOutcome.timeout (some 2),
             Event.submit 0 NetOutcome.timeout (some 3)]).max_concurrent -
            ((run (AsyncRequestManager.init 2)
              [Event.submit 0 (NetOutcome.response 200 (some 4)) (some 1),
               Event.submit 0 NetOutcome.timeout (some 2),
               Event.submit 0 NetOutcome.timeout (some 3)]).active_requests.filter
              (fun e => !((fun _ => true) e.rid))).length) ∧
      ((run (AsyncRequestManager.init 2)
        [Event.submit 0 (NetOutcome.response 200 (some 4)) (some 1),
         Event.submit 0 NetOutcome.timeout (some 2),
         Event.submit 0 NetOutcome.timeout (some 3)]).process_completed_requests
        (fun _ => true)).promoted =
        ((run (AsyncRequestManager.init 2)
          [Event.submit 0 (NetOutcome.response 200 (some 4)) (some 1),
           Event.submit 0 NetOutcome.timeout (some 2),
           Event.submit 0 NetOutcome.timeout (some 3)]).pending_requests.take
          ((run (AsyncRequestManager.init 2)
            [Event.submit 0 (NetOutcome.response 200 (some 4)) (some 1),
             Event.submit 0 NetOutcome.timeout (some 2),
             Event.submit 0 NetOutcome.timeout (some 3)]).max_concurrent -
            ((run (AsyncRequestManager.init 2)
              [Event.submit 0 (NetOutcome.response 200 (some 4)) (some 1),
               Event.submit 0 NetOutcome.timeout (some 2),
               Event.submit 0 NetOutcome.timeout (some 3)]).active_requests.filter
              (fun e => !((fun _ => true) e.rid))).length)).map PendingEntry.rid) ∧
    (∀ c ∈ ((run (AsyncRequestManager.init 2)
        [Event.submit 0 (NetOutcome.response 200 (some 4)) (some 1),
         Event.submit 0 NetOutcome.timeout (some 2),
         Event.submit 0 NetOutcome.timeout (some 3)]).process_completed_requests
        (fun _ => true)).calls, (fun t => t == 1) c.cb = true →
      callbackExec (fun t => t == 1) c = .error (.otherExn "callback raised")) :=
  C7_callback_fault_isolated 2
    [Event.submit 0 (NetOutcome.response 200 (some 4)) (some 1),
     Event.submit 0 NetOutcome.timeout (some 2),
     Event.submit 0 NetOutcome.timeout (some 3)]
    (fun _ => true) (fun t => t == 1)
    (run (AsyncRequestManager.init 2)
      [Event.submit 0 (NetOutcome.response 200 (some 4)) (some 1),
       Event.submit 0 NetOutcome.timeout (some 2),
       Event.submit 0 NetOutcome.timeout (some 3)]) rfl
    (by decide)

/-- C8 (counterexample): the claim that the dispatch of the verification
call happens outside the critical section is false of the source: the
`executor.submit` dispatch (src line 27) sits inside the `with self.lock`
block that wraps the whole `submit_request` body. -/
theorem C8_dispatch_inside_lock :
    ¬ (∀ a ∈ submit_request_actions SubmitBranch.immediate,
        a.kind = ActionKind.dispatch_to_executor → a.holds_ledger_lock = false) := by
  decide

/-- C8 (amended): `submit_request` never blocks on network I/O — every
operation it performs, in every branch, is lock-protected but non-blocking;
the dispatch is a `ThreadPoolExecutor.submit` enqueue performed inside the
critical section, and the blocking network call itself runs on an executor
worker thread that holds no ledger lock, so a slow downstream call in
progress never delays another submitter's admission decision. -/
theorem C8_submit_never_blocks_on_network (b : SubmitBranch) :
    ((submit_request_actions b).all fun a => !a.blocks_on_network) = true ∧
    ((submit_request_actions b).all fun a => a.holds_ledger_lock) = true ∧
    (make_request_actions.all fun a => !a.holds_ledger_lock) = true := by
  cases b <;> exact ⟨rfl, rfl, rfl⟩

/-- C9: `_make_request` is total and never raises — it returns (first
conjunct), returning the parsed JSON body exactly when the HTTP status is
200 and the body parses (second conjunct), and `None` on a timeout, on a
non-success status, and on any other exception (third to fifth conjuncts).
Consequently `future.result()` in the reconciler never raises, the `except`
branch that would pass `(None, str(e))` is unreachable, and every harvested
callback — of any manager state, any pass — receives an error argument of
`None` even when the verification call failed (last conjunct). -/
theorem C9_make_request_total :
    (∀ o : NetOutcome, ∃ v, make_request o = .ok v) ∧
    (∀ o : NetOutcome, ∀ b : Nat,
      make_request o = .ok (some b) ↔ o = .response 200 (some b)) ∧
    (make_request NetOutcome.timeout = .ok none) ∧
    (∀ s : Nat, ∀ j : Option Nat, s ≠ 200 →
      make_request (.response s j) = .ok none) ∧
    (∀ msg : String, make_request (.exn msg) = .ok none) ∧
    (∀ (m : AsyncRequestManager) (done : Nat → Bool),
      ∀ c ∈ (m.process_completed_requests done).calls, c.error = none) := by
  refine ⟨make_request_never_raises, make_request_some_iff, rfl, ?_, ?_, ?_⟩
  · intro s j hs
    cases j <;> simp [make_request, make_request_try, hs]
  · intro msg
    rfl
  · intro m done c hc
    rcases List.mem_filterMap.mp hc with ⟨e, _, hcall⟩
    exact (harvestCall_error_none e c hcall).1

/-- C10: `submit_request` treats a missing (`None`) callback asymmetrically.
Under saturation the rejection branch calls the callback unguarded, so the
call raises `TypeError` instead of returning (first conjunct); but the same
`None`-callback submission is accepted whenever a concurrency slot is free
(second conjunct), and the harvest loop guards the dispatch with a
truthiness check, so every invocation it ever dispatches comes from an
entry whose callback is present — `None` callbacks are silently skipped
(third conjunct). -/
theorem C10_none_callback_asymmetry (m : AsyncRequestManager) (img : Nat)
    (o : NetOutcome) (hA : m.max_concurrent ≤ m.active_requests.length)
    (hP : PENDING_REQUESTS_LIMIT ≤ m.pending_requests.length) :
    (m.submit_request img o none).ret =
      .error (.typeError "NoneType object is not callable") ∧
    (∀ m2 : AsyncRequestManager, ∀ img2 : Nat, ∀ o2 : NetOutcome,
      m2.active_requests.length < m2.max_concurrent →
        (m2.submit_request img2 o2 none).ret = .ok (some (m2.request_counter + 1))) ∧
    (∀ m3 : AsyncRequestManager, ∀ done : Nat → Bool,
      ∀ c ∈ (m3.process_completed_requests done).calls,
        ∃ e ∈ m3.active_requests, e.callback = some c.cb ∧ c.rid = e.rid) := by
  refine ⟨?_, ?_, ?_⟩
  · rw [submit_request_rejected_none m img o (by omega) (by omega)]
  · intro m2 img2 o2 hfree
    rw [submit_request_immediate m2 img2 o2 none hfree]
  · intro m3 done c hc
    rcases List.mem_filterMap.mp hc with ⟨e, he, hcall⟩
    rcases List.mem_filter.mp he with ⟨heA, _⟩
    rcases harvestCall_some e c hcall with ⟨h1, h2, _⟩
    exact ⟨e, heA, h2, h1⟩

/-- Closed instance of `C10_none_callback_asymmetry` at a saturated
manager. -/
theorem C10_none_callback_asymmetry_witness :
    (saturatedManager.submit_request 0 NetOutcome.timeout none).ret =
      .error (.typeError "NoneType object is not callable") ∧
    (∀ m2 : AsyncRequestManager, ∀ img2 : Nat, ∀ o2 : NetOutcome,
      m2.active_requests.length < m2.max_concurrent →
        (m2.submit_request img2 o2 none).ret = .ok (some (m2.request_counter + 1))) ∧
    (∀ m3 : AsyncRequestManager, ∀ done : Nat → Bool,
      ∀ c ∈ (m3.process_completed_requests done).calls,
        ∃ e ∈ m3.active_requests, e.callback = some c.cb ∧ c.rid = e.rid) :=
  C10_none_callback_asymmetry saturatedManager 0 NetOutcome.timeout
    (by decide) (by decide)
